import Mathlib

/-!
Verification development for the `yxhoo-transit-rs` repository: a shallow
embedding of the crate's pure core (the minute-precision datetime codec in
`src/dt_minute_tz.rs`, the response normalizer in `src/parser.rs`, and the
request-query construction in `src/yxhoo.rs`), together with theorems
settling the specification claims about them.

Modelling conventions:
* Machine integers (`u32`, `i32`) are `Nat`/`Int` with the source's range
  checks made explicit where the source's parse functions enforce them.
* `chrono` (an external dependency of the crate) is modelled by executable
  Lean functions faithful to its documented behaviour on the inputs the
  crate produces: calendar dates are proleptic Gregorian triples with the
  usual leap rule; `NaiveDate::succ_opt` is modelled total (it fails only at
  `NaiveDate::MAX`, which no claim touches); `FixedOffset` is a whole-minute
  offset (the crate only ever builds whole-minute offsets); the textual
  parsers for the two format strings are modelled on canonical zero-padded
  four-digit-year forms, which covers every string the crate emits and every
  string any claim mentions.
* Rust `String`s are Lean `String`s; where Rust byte semantics matter
  (`str::len`, `str::split_at`) the UTF-8 byte structure is modelled
  explicitly, and a Rust panic is modelled as an explicit result constructor.
* Fallible Rust code returning `Result`/`Option` is modelled with
  `Except`/`Option`.
-/

namespace Yxhoo

/-! ## Calendar model (chrono `NaiveDate` / `NaiveTime` / `DateTime<FixedOffset>`) -/

/-- A proleptic-Gregorian calendar date, as in chrono's `NaiveDate`. -/
structure NDate where
  year : Int
  month : Nat
  day : Nat
deriving DecidableEq, Repr

/-- A minute-precision time of day.  Every `NaiveTime` the crate constructs
has zero seconds and nanoseconds (values are built with
`from_hms_opt(_, _, 0)` or truncated with `with_second(0)`), so seconds are
not carried. -/
structure NTime where
  hour : Nat
  minute : Nat
deriving DecidableEq, Repr

/-- chrono `DateTime<FixedOffset>` at minute precision: local calendar date,
local time of day, and the fixed offset in whole minutes. -/
structure DT where
  date : NDate
  time : NTime
  offMin : Int
deriving DecidableEq, Repr

/-- Gregorian leap-year rule, as used by chrono. -/
def isLeap (y : Int) : Bool :=
  y % 4 == 0 && (y % 100 != 0 || y % 400 == 0)

/-- Days in a month of the proleptic Gregorian calendar. -/
def daysInMonth (y : Int) (m : Nat) : Nat :=
  match m with
  | 1 => 31
  | 2 => if isLeap y then 29 else 28
  | 3 => 31
  | 4 => 30
  | 5 => 31
  | 6 => 30
  | 7 => 31
  | 8 => 31
  | 9 => 30
  | 10 => 31
  | 11 => 30
  | 12 => 31
  | _ => 0

/-- Model of chrono's `NaiveDate::from_ymd_opt`: `some` exactly on valid
calendar dates.  (chrono's additional ±262143 year bound is not modelled; no
claim depends on it.) -/
def from_ymd_opt (y : Int) (m d : Nat) : Option NDate :=
  if 1 ≤ m && m ≤ 12 && 1 ≤ d && d ≤ daysInMonth y m then
    some ⟨y, m, d⟩
  else
    none

/-- Model of chrono's `NaiveTime::from_hms_opt(h, m, 0)`. -/
def from_hms_opt (h m : Nat) : Option NTime :=
  if h < 24 && m < 60 then some ⟨h, m⟩ else none

/-- Model of chrono's `NaiveDate::succ_opt`: the next calendar day.
Modelled total; the real function fails only at `NaiveDate::MAX`. -/
def dateSucc (d : NDate) : NDate :=
  if d.day < daysInMonth d.year d.month then
    { d with day := d.day + 1 }
  else if d.month < 12 then
    { year := d.year, month := d.month + 1, day := 1 }
  else
    { year := d.year + 1, month := 1, day := 1 }

/-- Strict `NaiveTime` comparison (chrono's `<` on times of day). -/
def ntLt (a b : NTime) : Bool :=
  a.hour < b.hour || (a.hour == b.hour && a.minute < b.minute)

/-- Chronological (lexicographic) strict order on calendar dates. -/
def dateLt (a b : NDate) : Prop :=
  a.year < b.year ∨
    (a.year = b.year ∧
      (a.month < b.month ∨ (a.month = b.month ∧ a.day < b.day)))

/-- Chronological order on same-offset timestamps: the local
(date, time-of-day) pair compared lexicographically.  For two timestamps
carrying the same fixed offset this coincides with Rust's `<=` on
`DateTime<FixedOffset>` (which compares instants). -/
def dtLe (a b : DT) : Prop :=
  dateLt a.date b.date ∨
    (a.date = b.date ∧
      (a.time.hour < b.time.hour ∨
        (a.time.hour = b.time.hour ∧ a.time.minute ≤ b.time.minute)))

/-! ## Rust string and integer-parsing primitives -/

/-- Numeric value of an ASCII digit character. -/
def digitVal (c : Char) : Nat := c.toNat - 48

/-- Value of a string of ASCII digits, most significant first. -/
def digitsVal (cs : List Char) : Nat :=
  cs.foldl (fun n c => n * 10 + digitVal c) 0

/-- Model of Rust `str::parse::<u32>` : an optional `+` sign, then one or
more ASCII digits, the whole string consumed, value within `u32` range. -/
def rustParseU32 (s : String) : Option Nat :=
  let cs := match s.data with
    | '+' :: rest => rest
    | cs => cs
  if cs ≠ [] && cs.all Char.isDigit then
    let v := digitsVal cs
    if v ≤ 4294967295 then some v else none
  else
    none

/-- Model of Rust `str::parse::<i32>` : an optional sign, then one or more
ASCII digits, the whole string consumed, value within `i32` range. -/
def rustParseI32 (s : String) : Option Int :=
  let (neg, cs) := match s.data with
    | '+' :: rest => (false, rest)
    | '-' :: rest => (true, rest)
    | cs => (false, cs)
  if cs ≠ [] && cs.all Char.isDigit then
    let v : Int := if neg then -(digitsVal cs : Int) else (digitsVal cs : Int)
    if -2147483648 ≤ v && v ≤ 2147483647 then some v else none
  else
    none

/-- Rust `str::trim` on a char list: whitespace stripped from both ends.
(Lean's `Char.isWhitespace` covers ASCII whitespace; Rust strips Unicode
whitespace — no claim involves non-ASCII whitespace.) -/
def rustTrimL (cs : List Char) : List Char :=
  ((cs.dropWhile Char.isWhitespace).reverse.dropWhile Char.isWhitespace).reverse

/-- Rust `str::trim`. -/
def rustTrim (s : String) : String :=
  ⟨rustTrimL s.data⟩

/-- Rust `str::split` with a char pattern: `""` yields `[""]`, separators
at the ends yield empty pieces. -/
def splitChar (c : Char) : List Char → List (List Char)
  | [] => [[]]
  | x :: rest =>
    match splitChar c rest with
    | [] => [[]]
    | h :: t => if x == c then [] :: h :: t else (x :: h) :: t

/-- `needle` is a leading run of `hay`. -/
def leadsWith : List Char → List Char → Bool
  | [], _ => true
  | _ :: _, [] => false
  | a :: ns, b :: hs => a == b && leadsWith ns hs

/-- Split `hay` at the first occurrence of `needle` (Rust `str::find` on a
substring pattern): returns the part before the occurrence and the part
after it. -/
def splitSub (needle : List Char) : List Char → Option (List Char × List Char)
  | [] => if needle = [] then some ([], []) else none
  | c :: rest =>
    if leadsWith needle (c :: rest) then
      some ([], (c :: rest).drop needle.length)
    else
      match splitSub needle rest with
      | some (before, after) => some (c :: before, after)
      | none => none

/-- Substring containment, Rust `str::contains` with a string pattern.
(UTF-8 is self-synchronizing, so byte-level containment of one valid string
in another coincides with this char-level containment.) -/
def strContains (hay needle : String) : Bool :=
  (splitSub needle.data hay.data).isSome

/-- Byte-aware model of Rust `str::split_at`: splits after `mid` UTF-8
bytes; `none` models the Rust panic when `mid` is not a char boundary or is
past the end. -/
def rustSplitAt : List Char → Nat → Option (List Char × List Char)
  | cs, 0 => some ([], cs)
  | [], _ + 1 => none
  | c :: cs, n + 1 =>
    if c.utf8Size ≤ n + 1 then
      match rustSplitAt cs (n + 1 - c.utf8Size) with
      | some (a, b) => some (c :: a, b)
      | none => none
    else
      none

/-! ## DateTimeCodec: `src/dt_minute_tz.rs` -/

/-- Result of `parse_str`: a parsed timestamp, one of the two error shapes
the source produces (`Err("timezone is required")` and a propagated chrono
parse error), or a Rust panic (reachable through `str::split_at`). -/
inductive PResult where
  | ok (dt : DT)
  | errTz
  | errParse
  | panicked
deriving DecidableEq, Repr

/-- Read exactly two ASCII digits. -/
def rdD2 : List Char → Option (Nat × List Char)
  | a :: b :: rest =>
    if a.isDigit && b.isDigit then
      some (10 * digitVal a + digitVal b, rest)
    else
      none
  | _ => none

/-- Read exactly four ASCII digits. -/
def rdD4 : List Char → Option (Nat × List Char)
  | a :: b :: c :: d :: rest =>
    if a.isDigit && b.isDigit && c.isDigit && d.isDigit then
      some (1000 * digitVal a + 100 * digitVal b + 10 * digitVal c + digitVal d, rest)
    else
      none
  | _ => none

/-- Expect a specific character. -/
def rdCh (c : Char) : List Char → Option (List Char)
  | x :: rest => if x == c then some rest else none
  | [] => none

/-- Read an offset sign; `true` means negative. -/
def rdSign : List Char → Option (Bool × List Char)
  | '+' :: rest => some (false, rest)
  | '-' :: rest => some (true, rest)
  | _ => none

/-- Shared tail of the two chrono format strings: `%:z`, an offset
`±HH:MM`, bound-checked against chrono's requirement that a `FixedOffset`
be strictly less than 24 hours in magnitude. -/
def rdOffset (cs : List Char) : Option (Int × List Char) :=
  match rdSign cs with
  | none => none
  | some (neg, cs) =>
    match rdD2 cs with
    | none => none
    | some (oh, cs) =>
      match rdCh ':' cs with
      | none => none
      | some cs =>
        match rdD2 cs with
        | none => none
        | some (om, cs) =>
          let total := oh * 60 + om
          if total < 1440 then
            some (if neg then -(total : Int) else (total : Int), cs)
          else
            none

/-- Shared head of the two chrono format strings:
`%Y-%m-%dT%H:%M`, on canonical zero-padded four-digit-year forms (the only
forms the crate emits or any claim mentions). Returns the raw fields before
calendar validation. -/
def rdDateTimeHead (cs : List Char) : Option (Nat × Nat × Nat × Nat × Nat × List Char) :=
  match rdD4 cs with
  | none => none
  | some (y, cs) =>
    match rdCh '-' cs with
    | none => none
    | some cs =>
      match rdD2 cs with
      | none => none
      | some (mo, cs) =>
        match rdCh '-' cs with
        | none => none
        | some cs =>
          match rdD2 cs with
          | none => none
          | some (da, cs) =>
            match rdCh 'T' cs with
            | none => none
            | some cs =>
              match rdD2 cs with
              | none => none
              | some (h, cs) =>
                match rdCh ':' cs with
                | none => none
                | some cs =>
                  match rdD2 cs with
                  | none => none
                  | some (mi, cs) => some (y, mo, da, h, mi, cs)

/-- Model of chrono `DateTime::parse_from_str` with
`FMT_MIN_TZ = "%Y-%m-%dT%H:%M%:z"`: the full input must be consumed and the
calendar fields must be valid. -/
def parseMinTzL (cs : List Char) : Option DT :=
  match rdDateTimeHead cs with
  | none => none
  | some (y, mo, da, h, mi, cs) =>
    match rdOffset cs with
    | none => none
    | some (off, cs) =>
      if cs = [] then
        match from_ymd_opt (Int.ofNat y) mo da with
        | none => none
        | some date =>
          match from_hms_opt h mi with
          | none => none
          | some time => some ⟨date, time, off⟩
      else
        none

/-- Model of chrono `DateTime::parse_from_str` with
`FMT_SEC_TZ = "%Y-%m-%dT%H:%M:%S%:z"`; the seconds field (chrono accepts
0–60, 60 being a leap second) is validated and then discarded, exactly as
the source truncates with `with_second(0).with_nanosecond(0)`. -/
def parseSecTzL (cs : List Char) : Option DT :=
  match rdDateTimeHead cs with
  | none => none
  | some (y, mo, da, h, mi, cs) =>
    match rdCh ':' cs with
    | none => none
    | some cs =>
      match rdD2 cs with
      | none => none
      | some (sec, cs) =>
        match rdOffset cs with
        | none => none
        | some (off, cs) =>
          if sec ≤ 60 && cs = [] then
            match from_ymd_opt (Int.ofNat y) mo da with
            | none => none
            | some date =>
              match from_hms_opt h mi with
              | none => none
              | some time => some ⟨date, time, off⟩
          else
            none

/-- UTF-8 byte length of a char list (Rust `str::len`). -/
def byteLen (cs : List Char) : Nat :=
  cs.foldl (fun n c => n + c.utf8Size) 0

/-- The body of `parse_str` after the `Z` normalization: try the two
datetime formats, then the date-plus-offset fallback, mirroring
`src/dt_minute_tz.rs` lines 33–53.  The fallback calls `str::split_at(10)`,
which panics when byte 10 of the (normalized) input is not a char
boundary. -/
def parseNoZ (cs : List Char) : PResult :=
  match parseMinTzL cs with
  | some dt => .ok dt
  | none =>
    match parseSecTzL cs with
    | some dt => .ok dt
    | none =>
      if byteLen cs > 10 then
        match rustSplitAt cs 10 with
        | none => .panicked
        | some (datePart, rest) =>
          match rest with
          | c :: _ =>
            if c == '+' || c == '-' then
              match parseMinTzL (datePart ++ ('T' :: '0' :: '0' :: ':' :: '0' :: '0' :: []) ++ rest) with
              | some dt => .ok dt
              | none => .errParse
            else
              .errTz
          | [] => .errTz
      else
        .errTz

/-- `parse_str` from `src/dt_minute_tz.rs`, over the char list of the
input: first a trailing `Z` is replaced by `+00:00`, then the normalized
string is parsed. -/
def parse_strL (cs : List Char) : PResult :=
  parseNoZ (if cs.getLast? = some 'Z' then cs.dropLast ++ ('+' :: '0' :: '0' :: ':' :: '0' :: '0' :: []) else cs)

/-- `parse_str` from `src/dt_minute_tz.rs` (the decoder of the
DateTimeCodec). -/
def parse_str (s : String) : PResult :=
  parse_strL s.data

/-- Two-digit zero-padded decimal rendering (chrono numeric fields with
default padding, values below 100). -/
def pad2 (n : Nat) : List Char :=
  [Char.ofNat (48 + n / 10), Char.ofNat (48 + n % 10)]

/-- Four-digit zero-padded decimal rendering (chrono `%Y` for years 0–9999). -/
def pad4 (n : Nat) : List Char :=
  [Char.ofNat (48 + n / 1000), Char.ofNat (48 + n / 100 % 10),
   Char.ofNat (48 + n / 10 % 10), Char.ofNat (48 + n % 10)]

/-- The char list written by formatting with `FMT_MIN_TZ` (chrono
`%Y-%m-%dT%H:%M%:z`). -/
def fmtMinTzL (dt : DT) : List Char :=
  pad4 dt.date.year.toNat ++
    ('-' :: (pad2 dt.date.month ++
      ('-' :: (pad2 dt.date.day ++
        ('T' :: (pad2 dt.time.hour ++
          (':' :: (pad2 dt.time.minute ++
            ((if dt.offMin < 0 then '-' else '+') ::
              (pad2 (dt.offMin.natAbs / 60) ++
                (':' :: pad2 (dt.offMin.natAbs % 60))))))))))))

/-- `serialize` from `src/dt_minute_tz.rs` (the encoder of the
DateTimeCodec): seconds are already absent from `DT` (the source truncates
them with `with_second(0).with_nanosecond(0)`), then the timestamp is
formatted with `FMT_MIN_TZ`. -/
def serialize (dt : DT) : String :=
  ⟨fmtMinTzL dt⟩

/-- Validity of a `DT` as a timestamp the crate can hold: a real calendar
date with an in-range time of day and a fixed offset below 24 hours in
magnitude, restricted to four-digit years (the canonical-form domain of the
chrono parsing model above). -/
def ValidDT (dt : DT) : Bool :=
  (0 ≤ dt.date.year && dt.date.year ≤ 9999) &&
    (1 ≤ dt.date.month && dt.date.month ≤ 12) &&
    (1 ≤ dt.date.day && dt.date.day ≤ daysInMonth dt.date.year dt.date.month) &&
    (dt.time.hour < 24 && dt.time.minute < 60) &&
    dt.offMin.natAbs < 1440

/-! ## JSON model (`serde_json::Value`) -/

/-- Untyped JSON tree, as `serde_json::Value`.  Numbers are modelled as
integers; no claim inspects a numeric leaf (all numeric-looking upstream
fields are strings). -/
inductive Json where
  | null
  | jbool (b : Bool)
  | jnum (n : Int)
  | jstr (s : String)
  | jarr (elems : List Json)
  | jobj (fields : List (String × Json))

/-- `Value::get(key)`: key lookup on objects, `None` elsewhere. -/
def jGet : Json → String → Option Json
  | .jobj fields, k => fields.lookup k
  | _, _ => none

/-- `Value::index(key)` (the `value["key"]` form): like `get` but yielding
`Value::Null` when absent. -/
def jidx (j : Json) (k : String) : Json :=
  (jGet j k).getD .null

/-- `Value::as_str`. -/
def asStr : Json → Option String
  | .jstr s => some s
  | _ => none

/-- `Value::as_array`. -/
def asArr : Json → Option (List Json)
  | .jarr xs => some xs
  | _ => none

/-- `Value::as_bool`. -/
def asBool : Json → Option Bool
  | .jbool b => some b
  | _ => none

/-! ## RouteNormalizer: `src/parser.rs` -/

/-- `SegmentDto` (`src/parser.rs`).  The Rust fields `from` / `to` are named
`fromName` / `toName` (`from` is a Lean keyword). -/
structure SegmentDto where
  mode : String
  fromName : String
  toName : String
  line : Option String
  destination : Option String
  duration_minutes : Option Nat
  fare_yen : Option Nat
  departure_time : Option DT
  arrival_time : Option DT
deriving DecidableEq, Repr

/-- `RouteSummaryDto` (`src/parser.rs`).  The `distance_km : Option<f64>`
field is omitted from the embedding: it is floating point and no claim
depends on it. -/
structure RouteSummaryDto where
  departure_time : Option DT
  arrival_time : Option DT
  duration_minutes : Option Nat
  transfer_count : Option Nat
  total_price_yen : Option Nat
  is_fast : Option Bool
  is_easy : Option Bool
  is_cheap : Option Bool
deriving DecidableEq, Repr

/-- `RouteDto` (`src/parser.rs`). -/
structure RouteDto where
  rank : Nat
  summary : RouteSummaryDto
  segments : List SegmentDto
deriving DecidableEq, Repr

/-- `TransitDto` (`src/parser.rs`); `from` / `to` renamed as in
`SegmentDto`. -/
structure TransitDto where
  fromName : String
  toName : String
  search_date_time : Option DT
  routes : List RouteDto
deriving DecidableEq, Repr

/-- `as_nonempty_str` (`src/parser.rs`): a string leaf, trimmed, rejected
when empty.  (Lean's `String.trim` strips ASCII whitespace where Rust strips
Unicode whitespace; no claim involves exotic whitespace.) -/
def as_nonempty_str (v : Json) : Option String :=
  match asStr v with
  | none => none
  | some s =>
    let t := rustTrim s
    if t = "" then none else some t

/-- `parse_u32_loose` (`src/parser.rs`): keep the ASCII digits, fail on an
empty digit run or `u32` overflow. -/
def parse_u32_loose (s : String) : Option Nat :=
  let ds := s.data.filter Char.isDigit
  if ds = [] then
    none
  else
    let v := digitsVal ds
    if v ≤ 4294967295 then some v else none

/-- `parse_hhmm` (`src/parser.rs`): split on `:`, require exactly two
parts, trim and parse each as `u32`, then `NaiveTime::from_hms_opt(h, m, 0)`. -/
def parse_hhmm (s : String) : Option NTime :=
  match splitChar ':' s.data with
  | [hs, ms] =>
    match rustParseU32 ⟨rustTrimL hs⟩ with
    | none => none
    | some h =>
      match rustParseU32 ⟨rustTrimL ms⟩ with
      | none => none
      | some m => from_hms_opt h m
  | _ => none

/-- `time_on_date_with_rollover` (`src/parser.rs`): parse a bare `HH:MM`;
with a previous cursor, keep the cursor's date unless the new time of day is
strictly earlier, in which case advance one calendar day; without a cursor,
anchor to the base date.  The result carries the base timestamp's offset
(`base.offset().from_local_datetime(..).single()` always succeeds for a
fixed offset). -/
def time_on_date_with_rollover (base : DT) (timeStr : String) (last : Option DT) : Option DT :=
  match parse_hhmm timeStr with
  | none => none
  | some time =>
    let date :=
      match last with
      | some prev => if ntLt time prev.time then dateSucc prev.date else prev.date
      | none => base.date
    some ⟨date, time, base.offMin⟩

/-- `infer_mode` (`src/parser.rs`). -/
def infer_mode (line : Option String) : String :=
  let s := line.getD ""
  if strContains s "徒歩" then "walk"
  else if strContains s "空路" || strContains s "フライト" || strContains s "飛行機" then "flight"
  else if strContains s "バス" || strContains s "連絡バス" || strContains s "高速" then "bus"
  else if strContains s "フェリー" || strContains s "船" then "ferry"
  else if s = "" then "unknown"
  else "rail"

/-- `parse_ja_duration_minutes` (`src/parser.rs`): hour+minute or
minutes-only localized duration.  (The source computes `hours * 60 +
minutes` in `u32`; overflow of that product is not modelled — every claim
instance is tiny.) -/
def parse_ja_duration_minutes (s : String) : Option Nat :=
  match splitSub "時間".data s.data with
  | some (before, rest) =>
    let hStr := before.filter Char.isDigit
    match (if hStr ≠ [] && digitsVal hStr ≤ 4294967295 then some (digitsVal hStr) else none) with
    | none => none
    | some hours =>
      match splitSub "分".data rest with
      | some (mb, _) =>
        let mStr := mb.filter Char.isDigit
        if mStr ≠ [] then
          if digitsVal mStr ≤ 4294967295 then
            some (hours * 60 + digitsVal mStr)
          else
            none
        else
          some (hours * 60)
      | none => some (hours * 60)
  | none =>
    match splitSub "分".data s.data with
    | some (mb, _) =>
      let mStr := mb.filter Char.isDigit
      if mStr ≠ [] && digitsVal mStr ≤ 4294967295 then some (digitsVal mStr) else none
    | none => none

/-- `build_search_datetime` (`src/parser.rs`): `y`/`m`/`d`/`hh` are
required string fields parsed as integers; the minute is `m1 * 10 + m2`
with each digit defaulting to `0`; the JST offset is +9 h = 540 min, and
`from_local_datetime(..).single()` always succeeds for a fixed offset. -/
def build_search_datetime (pq : Json) : Option DT :=
  match (jGet pq "y").bind asStr |>.bind rustParseI32 with
  | none => none
  | some y =>
    match (jGet pq "m").bind asStr |>.bind rustParseU32 with
    | none => none
    | some m =>
      match (jGet pq "d").bind asStr |>.bind rustParseU32 with
      | none => none
      | some d =>
        match (jGet pq "hh").bind asStr |>.bind rustParseU32 with
        | none => none
        | some hh =>
          let m1 := (((jGet pq "m1").bind asStr).bind rustParseU32).getD 0
          let m2 := (((jGet pq "m2").bind asStr).bind rustParseU32).getD 0
          let mm := m1 * 10 + m2
          match from_ymd_opt y m d with
          | none => none
          | some date =>
            match from_hms_opt hh mm with
            | none => none
            | some time => some ⟨date, time, 540⟩

/-- The `stationName` of an edge, defaulting to the empty string. -/
def edgeStation (e : Json) : String :=
  ((jGet e "stationName").bind asStr).getD ""

/-- The line label of an edge: the `railNameExcludingDestination` variant
preferred, else `railName`, trimmed non-empty. -/
def edgeLine (e : Json) : Option String :=
  ((jGet e "railNameExcludingDestination").bind as_nonempty_str).or
    ((jGet e "railName").bind as_nonempty_str)

/-- An edge's bare time string: first entry of `timeInfo`, its `time`
field, trimmed non-empty. -/
def edgeTime (e : Json) : Option String :=
  ((((jGet e "timeInfo").bind asArr).bind List.head?).bind (jGet · "time")).bind as_nonempty_str

/-- The loop body and iteration of `build_segments_from_edges`
(`src/parser.rs` lines 196–270), as structural recursion over consecutive
edge pairs, threading the `last_time` cursor. -/
def buildSegsGo (base : Option DT) : List Json → Option DT → List SegmentDto
  | cur :: next :: rest, last =>
    let line := edgeLine cur
    let departure_time :=
      (edgeTime cur).bind fun s => base.bind fun dt => time_on_date_with_rollover dt s last
    let last1 := match departure_time with
      | some dt => some dt
      | none => last
    let arrival_time :=
      (edgeTime next).bind fun s => base.bind fun dt => time_on_date_with_rollover dt s last1
    let last2 := match arrival_time with
      | some dt => some dt
      | none => last1
    { mode := infer_mode line
      fromName := edgeStation cur
      toName := edgeStation next
      line := line
      destination := (jGet cur "destination").bind as_nonempty_str
      duration_minutes := ((jGet cur "timeOnBoard").bind asStr).bind parse_u32_loose
      fare_yen := (((jGet cur "priceInfo").bind (jGet · "price")).bind asStr).bind parse_u32_loose
      departure_time := departure_time
      arrival_time := arrival_time } :: buildSegsGo base (next :: rest) last2
  | _, _ => []

/-- `build_segments_from_edges` (`src/parser.rs`): fewer than two edges
yield no segments; otherwise one segment per consecutive edge pair, with
the `last_time` cursor starting at `None`. -/
def build_segments_from_edges (edges : List Json) (base : Option DT) : List SegmentDto :=
  if edges.length < 2 then [] else buildSegsGo base edges none

/-- The per-route summary block of `next_data_to_transit_dto`
(`src/parser.rs` lines 131–167). -/
def buildSummary (base : Option DT) (feature : Json) : RouteSummaryDto :=
  let summary := jidx feature "summaryInfo"
  let departure_time :=
    ((jGet summary "departureTime").bind as_nonempty_str).bind fun s =>
      base.bind fun dt => time_on_date_with_rollover dt s none
  let arrival_time :=
    ((jGet summary "arrivalTime").bind as_nonempty_str).bind fun s =>
      base.bind fun dt => time_on_date_with_rollover dt s departure_time
  { departure_time := departure_time
    arrival_time := arrival_time
    duration_minutes := ((jGet summary "totalTime").bind asStr).bind parse_ja_duration_minutes
    transfer_count := ((jGet summary "transferCount").bind asStr).bind parse_u32_loose
    total_price_yen := ((jGet summary "totalPrice").bind asStr).bind parse_u32_loose
    is_fast := (jGet summary "isFast").bind asBool
    is_easy := (jGet summary "isEasy").bind asBool
    is_cheap := (jGet summary "isCheap").bind asBool }

/-- An feature's edge list: `edgeInfoList` as an array, defaulting to
empty (`unwrap_or` in the source). -/
def edgesOf (feature : Json) : List Json :=
  ((jGet feature "edgeInfoList").bind asArr).getD []

/-- The enumerated route-building loop of `next_data_to_transit_dto`
(`features.iter().enumerate()`, rank = index + 1). -/
def buildRoutesGo (base : Option DT) : Nat → List Json → List RouteDto
  | _, [] => []
  | idx, feature :: rest =>
    { rank := idx + 1
      summary := buildSummary base feature
      segments := build_segments_from_edges (edgesOf feature) base } :: buildRoutesGo base (idx + 1) rest

/-- `next_data_to_transit_dto` (`src/parser.rs`): names from the display
info falling back to the echoed query; the search timestamp from the page
query; failure exactly when `featureInfoList` is not an array. -/
def next_data_to_transit_dto (root : Json) : Except String TransitDto :=
  let pageProps := jidx (jidx root "props") "pageProps"
  let navi := jidx pageProps "naviSearchParam"
  let fromName := ((asStr (jidx (jidx navi "displayInfo") "fromName")).or
    (asStr (jidx (jidx pageProps "pageQuery") "from"))).getD ""
  let toName := ((asStr (jidx (jidx navi "displayInfo") "toName")).or
    (asStr (jidx (jidx pageProps "pageQuery") "to"))).getD ""
  let search_date_time := build_search_datetime (jidx pageProps "pageQuery")
  match asArr (jidx navi "featureInfoList") with
  | none => .error "featureInfoList missing"
  | some features =>
    .ok { fromName := fromName
          toName := toName
          search_date_time := search_date_time
          routes := buildRoutesGo search_date_time 0 features }

/-! ## RequestEncoder: `src/args.rs` and `src/yxhoo.rs` -/

/-- `TransitTicketPreference` (`src/args.rs`); default `Normal`. -/
inductive TransitTicketPreference where
  | ic
  | normal
deriving DecidableEq, Repr

/-- `TransitTicketPreference::as_str`. -/
def TransitTicketPreference.as_str : TransitTicketPreference → String
  | .normal => "normal"
  | .ic => "ic"

/-- `TransitTicketPreference::default()`. -/
def ticketDefault : TransitTicketPreference := .normal

/-- `SeatPreference` (`src/args.rs`); default `NonReserved`. -/
inductive SeatPreference where
  | nonReserved
  | reserved
  | greenCar
deriving DecidableEq, Repr

/-- `SeatPreference::as_u32` (the discriminants 1, 2, 3). -/
def SeatPreference.as_u32 : SeatPreference → Nat
  | .nonReserved => 1
  | .reserved => 2
  | .greenCar => 3

/-- `SeatPreference::default()`. -/
def seatDefault : SeatPreference := .nonReserved

/-- `WalkingSpeed` (`src/args.rs`); default `Leisurely`. -/
inductive WalkingSpeed where
  | fast
  | brisk
  | leisurely
  | slow
deriving DecidableEq, Repr

/-- `WalkingSpeed::as_u32` (the discriminants 1–4). -/
def WalkingSpeed.as_u32 : WalkingSpeed → Nat
  | .fast => 1
  | .brisk => 2
  | .leisurely => 3
  | .slow => 4

/-- `WalkingSpeed::default()`. -/
def walkingDefault : WalkingSpeed := .leisurely

/-- `AvailableMeans` (`src/args.rs`). -/
inductive AvailableMeans where
  | airlane
  | shinkansen
  | paidExpress
  | highwayBus
  | bus
  | ferry
deriving DecidableEq, Repr

/-- `AvailableMeans::as_str`. -/
def AvailableMeans.as_str : AvailableMeans → String
  | .airlane => "al"
  | .shinkansen => "shin"
  | .paidExpress => "ex"
  | .highwayBus => "hb"
  | .bus => "lb"
  | .ferry => "sr"

/-- `DateKind` (`src/args.rs`). -/
inductive DateKind where
  | departureTime
  | lastTrain
  | firstTrain
  | arrivalTime
  | notSpecified
deriving DecidableEq, Repr

/-- `DateKind::as_u32` (the discriminants 1–5). -/
def DateKind.as_u32 : DateKind → Nat
  | .departureTime => 1
  | .lastTrain => 2
  | .firstTrain => 3
  | .arrivalTime => 4
  | .notSpecified => 5

/-- `TransitCriteria` (`src/args.rs`); default `EarliestArrival`. -/
inductive TransitCriteria where
  | earliestArrival
  | lowestCost
  | fewestTransfers
deriving DecidableEq, Repr

/-- `TransitCriteria::as_u32` (the discriminants 0–2). -/
def TransitCriteria.as_u32 : TransitCriteria → Nat
  | .earliestArrival => 0
  | .lowestCost => 1
  | .fewestTransfers => 2

/-- `TransitCriteria::default()`. -/
def criteriaDefault : TransitCriteria := .earliestArrival

/-- `TransitOptions` as consumed by `transit` in `src/yxhoo.rs` (each
preference optional, plus the allowed transport means). -/
structure TransitOptions where
  ticket_preference : Option TransitTicketPreference
  seat_preference : Option SeatPreference
  walking_speed : Option WalkingSpeed
  available_means : List AvailableMeans
deriving DecidableEq, Repr

/-- `TransitArgs` as consumed by `transit` in `src/yxhoo.rs`; `from` / `to`
renamed `fromName` / `toName`. -/
structure TransitArgs where
  fromName : String
  toName : String
  date : DT
  date_kind : DateKind
  criteria : Option TransitCriteria
  rank : Nat
  options : Option TransitOptions
deriving DecidableEq, Repr

/-- `minute_digits` (`src/yxhoo.rs`): tens digit and ones digit of the
minute. -/
def minute_digits (min : Nat) : Nat × Nat :=
  (min / 10, min % 10)

/-- The query-parameter construction of `transit` (`src/yxhoo.rs` lines
70–128), the pure part of the function before the HTTP exchange.  The
`HashSet` of enabled means is used only through membership, modelled by
list membership of the encoded keys. -/
def transitQuery (args : TransitArgs) : List (String × String) :=
  let dt := args.date
  let base : List (String × String) :=
    [("from", args.fromName), ("to", args.toName),
     ("y", toString dt.date.year), ("m", toString dt.date.month),
     ("d", toString dt.date.day), ("hh", toString dt.time.hour),
     ("m1", toString (minute_digits dt.time.minute).1),
     ("m2", toString (minute_digits dt.time.minute).2),
     ("type", toString args.date_kind.as_u32),
     ("s", toString (args.criteria.getD criteriaDefault).as_u32),
     ("no", toString args.rank)]
  let opts : List (String × String) :=
    match args.options with
    | some opt =>
      (match opt.ticket_preference with
        | some ticket => [("ticket", ticket.as_str)]
        | none => []) ++
      (match opt.seat_preference with
        | some seat => [("expkind", toString seat.as_u32)]
        | none => []) ++
      (match opt.walking_speed with
        | some ws => [("ws", toString ws.as_u32)]
        | none => []) ++
      (let set := opt.available_means.map AvailableMeans.as_str
       ["al", "shin", "ex", "hb", "lb", "sr"].map fun key =>
         (key, if set.contains key then "1" else "0"))
    | none =>
      [("ticket", ticketDefault.as_str),
       ("expkind", toString seatDefault.as_u32),
       ("ws", toString walkingDefault.as_u32)] ++
      ["al", "shin", "ex", "hb", "lb", "sr"].map fun key => (key, "1")
  base ++ opts

/-! ## Spec-side definitions used to state the claims -/

/-- Written from the spec's words for claim C1: place one bare time of day
relative to the running cursor — the first reconstructed time takes the
search date; a later time of day strictly earlier than the cursor's time of
day is placed exactly one calendar day after the cursor's date, otherwise
on the cursor's date.  All reconstructed timestamps carry the search
timestamp's offset. -/
def specPlace (base : DT) (cursor : Option DT) (tod : NTime) : DT :=
  match cursor with
  | none => ⟨base.date, tod, base.offMin⟩
  | some c => if ntLt tod c.time then ⟨dateSucc c.date, tod, base.offMin⟩ else ⟨c.date, tod, base.offMin⟩

/-- Written from the spec's words for claim C1: one reconstruction event.
A missing or unparsable bare time leaves the field absent without resetting
the cursor; a reconstructed time becomes the new cursor. -/
def specStep (base : DT) (cursor : Option DT) (t? : Option String) : Option DT × Option DT :=
  match t? with
  | none => (none, cursor)
  | some s =>
    match parse_hhmm s with
    | none => (none, cursor)
    | some tod =>
      let placed := specPlace base cursor tod
      (some placed, some placed)

/-- Written from the spec's words for claim C1: thread one cursor across
the route's bare times in traversal order — segment `i`'s departure from
edge `i`'s time, then its arrival from edge `i+1`'s time, then the next
segment's departure, and so on — yielding each segment's
(departure, arrival) pair. -/
def specRebuild (base : DT) : List (Option String) → Option DT → List (Option DT × Option DT)
  | t0 :: t1 :: rest, cursor =>
    let s0 := specStep base cursor t0
    let s1 := specStep base s0.2 t1
    (s0.1, s1.1) :: specRebuild base (t1 :: rest) s1.2
  | _, _ => []

/-- Consecutive pairs of a list (edge `i` with edge `i+1`). -/
def consecPairs {α : Type} : List α → List (α × α)
  | a :: b :: rest => (a, b) :: consecPairs (b :: rest)
  | _ => []

/-- The reconstructed segment timestamps in traversal order (departure
before arrival, segment by segment), keeping only the present ones. -/
def segTimes : List SegmentDto → List DT
  | [] => []
  | s :: rest => s.departure_time.toList ++ s.arrival_time.toList ++ segTimes rest

/-- The present timestamps of a list of (departure, arrival) pairs, in
order. -/
def specTimes : List (Option DT × Option DT) → List DT
  | [] => []
  | (d, a) :: rest => d.toList ++ a.toList ++ specTimes rest

/-- Both timestamps of a summary are absent. -/
def summaryTimesAbsent (s : RouteSummaryDto) : Bool :=
  s.departure_time.isNone && s.arrival_time.isNone

/-- Both timestamps of a segment are absent. -/
def segTimesAbsent (s : SegmentDto) : Bool :=
  s.departure_time.isNone && s.arrival_time.isNone

/-- Every summary and segment timestamp of a route is absent. -/
def routeTimesAbsent (r : RouteDto) : Bool :=
  summaryTimesAbsent r.summary && r.segments.all segTimesAbsent

/-- Claim C2's conclusion as a decidable check on the normalizer's result:
on success, the search timestamp and every summary/segment timestamp are
absent (a failed parse is not a normalized result). -/
def resultTimesAbsent : Except String TransitDto → Bool
  | .error _ => true
  | .ok dto => dto.search_date_time.isNone && dto.routes.all routeTimesAbsent

/-- Keyword sets of the spec's mode-inference description (claim C8). -/
def walkKeys : List String := ["徒歩"]

/-- Flight-related keywords (claim C8). -/
def flightKeys : List String := ["空路", "フライト", "飛行機"]

/-- Bus-related keywords (claim C8). -/
def busKeys : List String := ["バス", "連絡バス", "高速"]

/-- Ferry/ship keywords (claim C8). -/
def ferryKeys : List String := ["フェリー", "船"]

/-- The label contains at least one of the keywords. -/
def hasAny (s : String) (keys : List String) : Bool :=
  keys.any fun k => strContains s k

/-! ## Concrete inputs used by the claims -/

/-- An upstream edge record with a station name and one bare time entry. -/
def edgeJ (name time : String) : Json :=
  .jobj [("stationName", .jstr name), ("timeInfo", .jarr [.jobj [("time", .jstr time)]])]

/-- The spec's three-edge example: `[{A,"08:50"},{B,"08:55"},{C,"08:40"}]`. -/
def exEdges : List Json :=
  [edgeJ "A" "08:50", edgeJ "B" "08:55", edgeJ "C" "08:40"]

/-- A search timestamp `D` = 2024-07-01 10:00 +09:00 (JST). -/
def exBase : DT := ⟨⟨2024, 7, 1⟩, ⟨10, 0⟩, 540⟩

/-- A response tree whose page query lacks the `y` field while its edges do
carry bare `HH:MM` time strings (claim C2's witness input). -/
def exRootNoYear : Json :=
  .jobj [("props", .jobj [("pageProps", .jobj
    [("pageQuery", .jobj [("m", .jstr "7"), ("d", .jstr "1"), ("hh", .jstr "10")]),
     ("naviSearchParam", .jobj
       [("featureInfoList", .jarr [.jobj
         [("summaryInfo", .jobj [("departureTime", .jstr "08:50"), ("arrivalTime", .jstr "08:55")]),
          ("edgeInfoList", .jarr [edgeJ "A" "08:50", edgeJ "B" "08:55", edgeJ "C" "08:40"])]])])])])]

/-! ## Helper lemmas -/

theorem glCons (c : Char) {l : List Char} (h : l ≠ []) :
    (c :: l).getLast? = l.getLast? := by
  cases l with
  | nil => exact absurd rfl h
  | cons d r => rw [List.getLast?_cons_cons]

theorem glApp (l₁ : List Char) {l₂ : List Char} (h : l₂ ≠ []) :
    (l₁ ++ l₂).getLast? = l₂.getLast? := by
  induction l₁ with
  | nil => rfl
  | cons c t ih =>
    rw [List.cons_append, glCons c (by simp [h]), ih]

theorem digitCharIsDigit {k : Nat} (h : k < 10) :
    (Char.ofNat (48 + k)).isDigit = true := by
  interval_cases k <;> decide

theorem digitCharVal {k : Nat} (h : k < 10) :
    digitVal (Char.ofNat (48 + k)) = k := by
  interval_cases k <;> decide

theorem digitCharNeZ {k : Nat} (h : k < 10) :
    (Char.ofNat (48 + k) == 'Z') = false := by
  interval_cases k <;> decide

theorem rdD2_pad2 {n : Nat} (h : n < 100) (r : List Char) :
    rdD2 (pad2 n ++ r) = some (n, r) := by
  have h1 : n / 10 < 10 := by omega
  have h2 : n % 10 < 10 := by omega
  simp only [pad2, List.cons_append, List.nil_append, rdD2,
    digitCharIsDigit h1, digitCharIsDigit h2, Bool.and_self, if_true,
    digitCharVal h1, digitCharVal h2]
  congr 1
  congr 1
  omega

theorem rdD4_pad4 {n : Nat} (h : n ≤ 9999) (r : List Char) :
    rdD4 (pad4 n ++ r) = some (n, r) := by
  have h1 : n / 1000 < 10 := by omega
  have h2 : n / 100 % 10 < 10 := by omega
  have h3 : n / 10 % 10 < 10 := by omega
  have h4 : n % 10 < 10 := by omega
  simp only [pad4, List.cons_append, List.nil_append, rdD4,
    digitCharIsDigit h1, digitCharIsDigit h2, digitCharIsDigit h3, digitCharIsDigit h4,
    Bool.and_self, if_true,
    digitCharVal h1, digitCharVal h2, digitCharVal h3, digitCharVal h4]
  congr 1
  congr 1
  omega

theorem rdD2_pad2_nil {n : Nat} (h : n < 100) : rdD2 (pad2 n) = some (n, []) := by
  simpa using rdD2_pad2 h []

theorem rdCh_cons (c : Char) (r : List Char) : rdCh c (c :: r) = some r := by
  simp [rdCh]

/-- The formatted timestamp never ends in `Z` (its last char is a digit). -/
theorem fmtMinTzL_getLast (dt : DT) :
    ∃ k, k < 10 ∧ (fmtMinTzL dt).getLast? = some (Char.ofNat (48 + k)) := by
  refine ⟨dt.offMin.natAbs % 60 % 10, by omega, ?_⟩
  unfold fmtMinTzL
  rw [glApp _ (by simp), glCons _ (by simp [pad2]),
    glApp _ (by simp), glCons _ (by simp [pad2]),
    glApp _ (by simp), glCons _ (by simp [pad2]),
    glApp _ (by simp), glCons _ (by simp [pad2]),
    glApp _ (by simp), glCons _ (by simp [pad2]),
    glApp _ (by simp), glCons _ (by simp [pad2])]
  rfl

/-- The encoder followed by the canonical-format parser recovers the
timestamp exactly. -/
theorem parseMinTzL_fmt (dt : DT) (h : ValidDT dt = true) :
    parseMinTzL (fmtMinTzL dt) = some dt := by
  simp only [ValidDT, Bool.and_eq_true, decide_eq_true_eq] at h
  obtain ⟨⟨⟨⟨⟨hy0, hy1⟩, hm0, hm1⟩, hd0, hd1⟩, hh, hmi⟩, hoff⟩ := h
  have hyt : dt.date.year.toNat ≤ 9999 := by omega
  have hmo : dt.date.month < 100 := by omega
  have hda : dt.date.day < 100 := by
    have : daysInMonth dt.date.year dt.date.month ≤ 31 := by
      unfold daysInMonth
      split <;> first | omega | split <;> omega
    omega
  have hoh : dt.offMin.natAbs / 60 < 100 := by omega
  have hom : dt.offMin.natAbs % 60 < 100 := by omega
  have hsign : ∀ r : List Char,
      rdSign ((if dt.offMin < 0 then '-' else '+') :: r) =
        some (decide (dt.offMin < 0), r) := by
    intro r
    by_cases hneg : dt.offMin < 0 <;> simp [hneg, rdSign]
  have htot : dt.offMin.natAbs / 60 * 60 + dt.offMin.natAbs % 60 = dt.offMin.natAbs := by
    omega
  have hoffeq :
      (if decide (dt.offMin < 0) = true then -(dt.offMin.natAbs : Int) else (dt.offMin.natAbs : Int)) =
        dt.offMin := by
    by_cases hneg : dt.offMin < 0
    · rw [if_pos (by simp [hneg])]
      omega
    · rw [if_neg (by simp [hneg])]
      omega
  have hyear : Int.ofNat dt.date.year.toNat = dt.date.year := Int.toNat_of_nonneg hy0
  have hcymd : (1 ≤ dt.date.month && dt.date.month ≤ 12 && 1 ≤ dt.date.day &&
      dt.date.day ≤ daysInMonth dt.date.year dt.date.month) = true := by
    simp only [Bool.and_eq_true, decide_eq_true_eq]
    exact ⟨⟨⟨hm0, hm1⟩, hd0⟩, hd1⟩
  have hymd : from_ymd_opt dt.date.year dt.date.month dt.date.day = some dt.date := by
    simp [from_ymd_opt, hcymd]
  have hhms : from_hms_opt dt.time.hour dt.time.minute = some dt.time := by
    simp [from_hms_opt, hh, hmi]
  unfold fmtMinTzL parseMinTzL rdDateTimeHead rdOffset
  simp only [rdD4_pad4 hyt, rdCh_cons, rdD2_pad2 hmo, rdD2_pad2 hda,
    rdD2_pad2 (show dt.time.hour < 100 by omega),
    rdD2_pad2 (show dt.time.minute < 100 by omega),
    hsign, rdD2_pad2 hoh, rdD2_pad2_nil hom, htot,
    if_pos (show dt.offMin.natAbs < 1440 by omega), hoffeq, hyear, hymd, hhms]
  simp

/-! ## Claim theorems: the DateTimeCodec -/

/-- Claim C3: for every minute-precision, offset-qualified timestamp `x`
(a valid calendar timestamp of the codec's domain), decoding the encoded
textual form yields `x` back: `parse_str (serialize x) = ok x`. -/
theorem claim_C3 (dt : DT) (h : ValidDT dt = true) :
    parse_str (serialize dt) = .ok dt := by
  obtain ⟨k, hk, hlast⟩ := fmtMinTzL_getLast dt
  have hne : (fmtMinTzL dt).getLast? ≠ some 'Z' := by
    rw [hlast]
    intro hc
    have hz := digitCharNeZ hk
    injection hc with hc'
    rw [hc'] at hz
    simp at hz
  show parse_strL (fmtMinTzL dt) = .ok dt
  unfold parse_strL
  rw [if_neg hne]
  unfold parseNoZ
  rw [parseMinTzL_fmt dt h]

/-- Witness for claim C3 at 2025-12-18T09:30+09:00. -/
theorem claim_C3_witness :
    ValidDT ⟨⟨2025, 12, 18⟩, ⟨9, 30⟩, 540⟩ = true ∧
      parse_str (serialize ⟨⟨2025, 12, 18⟩, ⟨9, 30⟩, 540⟩) = .ok ⟨⟨2025, 12, 18⟩, ⟨9, 30⟩, 540⟩ :=
  ⟨by decide, claim_C3 _ (by decide)⟩

/-- Claim C4 (code bug): the decoder is meant to fail with an error on
every offset-less, calendar-invalid or malformed input — and it does return
an error on such inputs when the byte-10 split is possible (three samples
below) — but on an offset-less input whose tenth byte is not a UTF-8 char
boundary, such as `"ああああ"` (twelve bytes, boundaries at 0/3/6/9/12),
`str::split_at(10)` panics instead of returning an error. -/
theorem claim_C4_panic :
    parse_str "ああああ" = .panicked ∧
      parse_str "2025-12-18T09:30" = .errTz ∧
      parse_str "2025-12-18T09:30:61+09:00" = .errTz ∧
      parse_str "2025/12/18+09:00" = .errParse := by
  refine ⟨by decide, by decide, by decide, by decide⟩

/-- Claim C5: a bare date directly followed by an offset decodes as that
date at 00:00 with the offset; and decoding a string ending in `Z` equals
decoding the same string with the final `Z` replaced by `+00:00`. -/
theorem claim_C5 :
    parse_str "2025-12-18+09:00" = parse_str "2025-12-18T00:00+09:00" ∧
      ∀ s : String, s.data.getLast? = some 'Z' →
        parse_str s = parse_str ⟨s.data.dropLast ++ ('+' :: '0' :: '0' :: ':' :: '0' :: '0' :: [])⟩ := by
  constructor
  · decide
  · intro s h
    show parse_strL s.data = parse_strL (s.data.dropLast ++ ('+' :: '0' :: '0' :: ':' :: '0' :: '0' :: []))
    unfold parse_strL
    rw [if_pos h, if_neg]
    rw [glApp _ (by simp)]
    decide

/-- Witness for claim C5's `Z` equivalence at `"2025-12-18T09:30Z"`. -/
theorem claim_C5_witness :
    parse_str "2025-12-18T09:30Z" = parse_str "2025-12-18T09:30+00:00" :=
  claim_C5.2 "2025-12-18T09:30Z" (by decide)

/-! ## Claim theorems: segment building and timestamp reconstruction -/

theorem stepFst (b : DT) (cursor : Option DT) (t? : Option String) :
    (t?.bind fun s => (some b).bind fun dt => time_on_date_with_rollover dt s cursor) =
      (specStep b cursor t?).1 := by
  cases t? with
  | none => rfl
  | some s =>
    show time_on_date_with_rollover b s cursor = _
    simp only [specStep]
    unfold time_on_date_with_rollover
    cases parse_hhmm s with
    | none => rfl
    | some tod =>
      show some _ = some (specPlace b cursor tod)
      unfold specPlace
      cases cursor with
      | none => rfl
      | some c => by_cases hlt : ntLt tod c.time <;> simp [hlt]

theorem stepSnd (b : DT) (cursor : Option DT) (t? : Option String) :
    (match (specStep b cursor t?).1 with
      | some dt => some dt
      | none => cursor) = (specStep b cursor t?).2 := by
  cases t? with
  | none => rfl
  | some s =>
    simp only [specStep]
    cases parse_hhmm s with
    | none => rfl
    | some tod => rfl

theorem buildSegsGo_spec (b : DT) (edges : List Json) : ∀ cursor : Option DT,
    (buildSegsGo (some b) edges cursor).map (fun s => (s.departure_time, s.arrival_time)) =
      specRebuild b (edges.map edgeTime) cursor := by
  induction edges with
  | nil => intro cursor; rfl
  | cons cur rest ih =>
    intro cursor
    cases rest with
    | nil => rfl
    | cons next rest' =>
      show _ = specRebuild b (edgeTime cur :: edgeTime next :: rest'.map edgeTime) cursor
      simp only [buildSegsGo, specRebuild, List.map_cons, stepFst, stepSnd, ih]

/-- Claim C1: segment timestamps are exactly the threading of one cursor
across the edges' bare times in order (departure, arrival, next departure,
…): the first reconstructed time takes the search date, a later time of day
strictly earlier than the cursor's is placed one calendar day later (else on
the cursor's date), and a missing or unparsable bare time leaves the field
absent without resetting the cursor; in particular the spec's three-edge
example with search date 2024-07-01 yields 08:50 / 08:55 on the search date
and then 08:55 / 08:40 with the final arrival rolled to 2024-07-02. -/
theorem claim_C1 :
    (∀ (edges : List Json) (b : DT),
      (build_segments_from_edges edges (some b)).map (fun s => (s.departure_time, s.arrival_time)) =
        specRebuild b (edges.map edgeTime) none) ∧
      (build_segments_from_edges exEdges (some exBase)).map
          (fun s => (s.departure_time, s.arrival_time)) =
        [(some ⟨⟨2024, 7, 1⟩, ⟨8, 50⟩, 540⟩, some ⟨⟨2024, 7, 1⟩, ⟨8, 55⟩, 540⟩),
         (some ⟨⟨2024, 7, 1⟩, ⟨8, 55⟩, 540⟩, some ⟨⟨2024, 7, 2⟩, ⟨8, 40⟩, 540⟩)] := by
  constructor
  · intro edges b
    match edges with
    | [] => rfl
    | [e] => rfl
    | e1 :: e2 :: rest =>
      have hlen : ¬((e1 :: e2 :: rest).length < 2) := by
        simp only [List.length_cons]
        omega
      unfold build_segments_from_edges
      rw [if_neg hlen]
      exact buildSegsGo_spec b (e1 :: e2 :: rest) none
  · decide

theorem buildSegsGo_length (base : Option DT) (edges : List Json) : ∀ cursor : Option DT,
    (buildSegsGo base edges cursor).length = edges.length - 1 := by
  induction edges with
  | nil => intro cursor; rfl
  | cons cur rest ih =>
    intro cursor
    cases rest with
    | nil => rfl
    | cons next rest' =>
      simp only [buildSegsGo, List.length_cons, ih]
      omega

theorem buildSegsGo_span (base : Option DT) (edges : List Json) : ∀ cursor : Option DT,
    (buildSegsGo base edges cursor).map (fun s => (s.fromName, s.toName)) =
      (consecPairs edges).map (fun p => (edgeStation p.1, edgeStation p.2)) := by
  induction edges with
  | nil => intro cursor; rfl
  | cons cur rest ih =>
    intro cursor
    cases rest with
    | nil => rfl
    | cons next rest' =>
      simp only [buildSegsGo, consecPairs, List.map_cons, ih]

/-- Claim C6: each route yields `max(0, edge-count − 1)` segments — fewer
than two edges (including a missing or non-array `edgeInfoList`) yield no
segments, and segment `i` spans edge `i` to edge `i+1` (its `from`/`to`
names come from those two edges). -/
theorem claim_C6 :
    (∀ (edges : List Json) (base : Option DT),
      (build_segments_from_edges edges base).length = edges.length - 1) ∧
      (∀ (edges : List Json) (base : Option DT),
        (build_segments_from_edges edges base).map (fun s => (s.fromName, s.toName)) =
          (consecPairs edges).map (fun p => (edgeStation p.1, edgeStation p.2))) ∧
      (∀ (feature : Json) (base : Option DT),
        (jGet feature "edgeInfoList").bind asArr = none →
          build_segments_from_edges (edgesOf feature) base = []) := by
  refine ⟨?_, ?_, ?_⟩
  · intro edges base
    match edges with
    | [] => rfl
    | [e] => rfl
    | e1 :: e2 :: rest =>
      have hlen : ¬((e1 :: e2 :: rest).length < 2) := by
        simp only [List.length_cons]
        omega
      unfold build_segments_from_edges
      rw [if_neg hlen]
      exact buildSegsGo_length base _ none
  · intro edges base
    match edges with
    | [] => rfl
    | [e] => rfl
    | e1 :: e2 :: rest =>
      have hlen : ¬((e1 :: e2 :: rest).length < 2) := by
        simp only [List.length_cons]
        omega
      unfold build_segments_from_edges
      rw [if_neg hlen]
      exact buildSegsGo_span base _ none
  · intro feature base h
    unfold edgesOf
    rw [h]
    rfl

/-- Witness for claim C6's missing-edge-list case at an empty feature. -/
theorem claim_C6_witness :
    build_segments_from_edges (edgesOf (.jobj [])) none = [] :=
  claim_C6.2.2 (.jobj []) none rfl

/-! ## Claim theorems: mode inference and duration parsing -/

theorem hasAny_walk (s : String) : hasAny s walkKeys = strContains s "徒歩" := by
  simp [hasAny, walkKeys]

theorem hasAny_flight (s : String) :
    hasAny s flightKeys =
      (strContains s "空路" || strContains s "フライト" || strContains s "飛行機") := by
  simp [hasAny, flightKeys, Bool.or_assoc]

theorem hasAny_bus (s : String) :
    hasAny s busKeys =
      (strContains s "バス" || strContains s "連絡バス" || strContains s "高速") := by
  simp [hasAny, busKeys, Bool.or_assoc]

theorem hasAny_ferry (s : String) :
    hasAny s ferryKeys = (strContains s "フェリー" || strContains s "船") := by
  simp [hasAny, ferryKeys]

/-- Claim C8: mode inference is first-match keyword priority over the line
label — a walking keyword gives `walk`; else a flight keyword gives
`flight`; else a bus keyword gives `bus`; else a ferry/ship keyword gives
`ferry`; else an empty label gives `unknown`; otherwise `rail` (an absent
label behaves as the empty label). -/
theorem claim_C8 (s : String) :
    (hasAny s walkKeys = true → infer_mode (some s) = "walk") ∧
      (hasAny s walkKeys = false → hasAny s flightKeys = true →
        infer_mode (some s) = "flight") ∧
      (hasAny s walkKeys = false → hasAny s flightKeys = false →
        hasAny s busKeys = true → infer_mode (some s) = "bus") ∧
      (hasAny s walkKeys = false → hasAny s flightKeys = false →
        hasAny s busKeys = false → hasAny s ferryKeys = true →
        infer_mode (some s) = "ferry") ∧
      (hasAny s walkKeys = false → hasAny s flightKeys = false →
        hasAny s busKeys = false → hasAny s ferryKeys = false → s = "" →
        infer_mode (some s) = "unknown") ∧
      (hasAny s walkKeys = false → hasAny s flightKeys = false →
        hasAny s busKeys = false → hasAny s ferryKeys = false → s ≠ "" →
        infer_mode (some s) = "rail") ∧
      infer_mode none = "unknown" := by
  simp only [hasAny_walk, hasAny_flight, hasAny_bus, hasAny_ferry]
  refine ⟨?_, ?_, ?_, ?_, ?_, ?_, by decide⟩
  · intro h1
    simp [infer_mode, h1]
  · intro h1 h2
    simp [infer_mode, h1, h2]
  · intro h1 h2 h3
    simp [infer_mode, h1, h2, h3]
  · intro h1 h2 h3 h4
    simp [infer_mode, h1, h2, h3, h4]
  · intro h1 h2 h3 h4 h5
    subst h5
    decide
  · intro h1 h2 h3 h4 h5
    simp [infer_mode, h1, h2, h3, h4, h5]

/-- Witness for claim C8 at the label `"徒歩"`. -/
theorem claim_C8_witness : infer_mode (some "徒歩") = "walk" :=
  (claim_C8 "徒歩").1 (by decide)

/-- Claim C9: the localized duration parser yields 62 for `"1時間2分"`, 4
for `"4分"`, 180 for `"3時間"`, and absence for text containing neither
unit marker. -/
theorem claim_C9 :
    parse_ja_duration_minutes "1時間2分" = some 62 ∧
      parse_ja_duration_minutes "4分" = some 4 ∧
      parse_ja_duration_minutes "3時間" = some 180 ∧
      ∀ s : String, splitSub "時間".data s.data = none →
        splitSub "分".data s.data = none →
        parse_ja_duration_minutes s = none := by
  refine ⟨by decide, by decide, by decide, ?_⟩
  intro s h1 h2
  unfold parse_ja_duration_minutes
  simp only [h1, h2]

/-- Witness for claim C9's no-marker case at `"abc"`. -/
theorem claim_C9_witness : parse_ja_duration_minutes "abc" = none :=
  claim_C9.2.2.2 "abc" (by decide) (by decide)

/-! ## Claim theorems: absence of the search anchor suppresses every
timestamp -/

theorem optBindConstNone {α β : Type} (o : Option α) :
    (o.bind fun _ => (none : Option β)) = none := by
  cases o <;> rfl

theorem buildSegsGo_none_absent (edges : List Json) : ∀ cursor : Option DT,
    (buildSegsGo none edges cursor).all segTimesAbsent = true := by
  induction edges with
  | nil => intro cursor; rfl
  | cons cur rest ih =>
    intro cursor
    cases rest with
    | nil => rfl
    | cons next rest' =>
      simp only [buildSegsGo, List.all_cons, Option.none_bind, optBindConstNone, ih,
        segTimesAbsent, Option.isNone_none, Bool.and_self, Bool.and_true]

theorem buildSummary_none_absent (feature : Json) :
    summaryTimesAbsent (buildSummary none feature) = true := by
  simp only [buildSummary, summaryTimesAbsent, Option.none_bind, optBindConstNone,
    Option.isNone_none, Bool.and_self]

theorem buildRoutesGo_none_absent (features : List Json) : ∀ idx : Nat,
    (buildRoutesGo none idx features).all routeTimesAbsent = true := by
  induction features with
  | nil => intro idx; rfl
  | cons feature rest ih =>
    intro idx
    simp only [buildRoutesGo, List.all_cons, routeTimesAbsent,
      buildSummary_none_absent, Bool.true_and, ih, Bool.and_true]
    unfold build_segments_from_edges
    split
    · rfl
    · exact buildSegsGo_none_absent _ none

theorem search_none (pq : Json)
    (h : ((jGet pq "y").bind asStr).bind rustParseI32 = none ∨
      ((jGet pq "m").bind asStr).bind rustParseU32 = none ∨
      ((jGet pq "d").bind asStr).bind rustParseU32 = none ∨
      ((jGet pq "hh").bind asStr).bind rustParseU32 = none) :
    build_search_datetime pq = none := by
  rcases h with h | h | h | h
  · unfold build_search_datetime
    rw [h]
  · unfold build_search_datetime
    rw [h]
    cases ((jGet pq "y").bind asStr).bind rustParseI32 <;> rfl
  · unfold build_search_datetime
    rw [h]
    cases ((jGet pq "y").bind asStr).bind rustParseI32
    · rfl
    · cases ((jGet pq "m").bind asStr).bind rustParseU32 <;> rfl
  · unfold build_search_datetime
    rw [h]
    cases ((jGet pq "y").bind asStr).bind rustParseI32
    · rfl
    · cases ((jGet pq "m").bind asStr).bind rustParseU32
      · rfl
      · cases ((jGet pq "d").bind asStr).bind rustParseU32 <;> rfl

/-- Claim C2: when the `y`, `m`, `d` or `hh` search-date field is missing
or unparsable, the normalized result's search timestamp is absent and every
departure/arrival timestamp in every route summary and every segment is
absent, even when bare time strings are present in the source tree. -/
theorem claim_C2 (root : Json)
    (h : ((jGet (jidx (jidx (jidx root "props") "pageProps") "pageQuery") "y").bind asStr
        |>.bind rustParseI32) = none ∨
      ((jGet (jidx (jidx (jidx root "props") "pageProps") "pageQuery") "m").bind asStr
        |>.bind rustParseU32) = none ∨
      ((jGet (jidx (jidx (jidx root "props") "pageProps") "pageQuery") "d").bind asStr
        |>.bind rustParseU32) = none ∨
      ((jGet (jidx (jidx (jidx root "props") "pageProps") "pageQuery") "hh").bind asStr
        |>.bind rustParseU32) = none) :
    resultTimesAbsent (next_data_to_transit_dto root) = true := by
  have hb : build_search_datetime (jidx (jidx (jidx root "props") "pageProps") "pageQuery") =
      none := search_none _ h
  simp only [next_data_to_transit_dto, hb]
  cases asArr (jidx (jidx (jidx (jidx root "props") "pageProps") "naviSearchParam") "featureInfoList") with
  | none => rfl
  | some features =>
    simp only [resultTimesAbsent, Option.isNone_none, Bool.true_and]
    exact buildRoutesGo_none_absent features 0

/-- Witness for claim C2 at a tree lacking `y` whose edges carry bare
times. -/
theorem claim_C2_witness :
    resultTimesAbsent (next_data_to_transit_dto exRootNoYear) = true :=
  claim_C2 exRootNoYear (Or.inl (by decide))

/-! ## Claim theorems: the request encoder -/

/-- Claim C7: with the optional preferences entirely omitted the encoder
emits the defaults ticket=`normal`, seat=`1` (non-reserved), walking=`3`
(leisurely) and all six transport-mean flags as `"1"`; and every timestamp's
minute is split into its tens digit and ones digit as two separate fields,
`minute_digits 47 = (4, 7)` in particular. -/
theorem claim_C7 (args : TransitArgs) (h : args.options = none) :
    transitQuery args =
      [("from", args.fromName), ("to", args.toName),
       ("y", toString args.date.date.year), ("m", toString args.date.date.month),
       ("d", toString args.date.date.day), ("hh", toString args.date.time.hour),
       ("m1", toString (args.date.time.minute / 10)),
       ("m2", toString (args.date.time.minute % 10)),
       ("type", toString args.date_kind.as_u32),
       ("s", toString ((args.criteria.getD criteriaDefault).as_u32)),
       ("no", toString args.rank),
       ("ticket", "normal"), ("expkind", "1"), ("ws", "3"),
       ("al", "1"), ("shin", "1"), ("ex", "1"), ("hb", "1"), ("lb", "1"), ("sr", "1")] ∧
      minute_digits 47 = (4, 7) := by
  constructor
  · unfold transitQuery
    rw [h]
    rfl
  · rfl

/-- Witness for claim C7 at concrete arguments with minute 47. -/
theorem claim_C7_witness :
    transitQuery ⟨"A", "B", ⟨⟨2024, 7, 1⟩, ⟨9, 47⟩, 540⟩, .departureTime, none, 1, none⟩ =
      [("from", "A"), ("to", "B"), ("y", "2024"), ("m", "7"), ("d", "1"), ("hh", "9"),
       ("m1", "4"), ("m2", "7"), ("type", "1"), ("s", "0"), ("no", "1"),
       ("ticket", "normal"), ("expkind", "1"), ("ws", "3"),
       ("al", "1"), ("shin", "1"), ("ex", "1"), ("hb", "1"), ("lb", "1"), ("sr", "1")] :=
  (claim_C7 ⟨"A", "B", ⟨⟨2024, 7, 1⟩, ⟨9, 47⟩, 540⟩, .departureTime, none, 1, none⟩ rfl).1

/-! ## Claim theorems: monotonicity of reconstructed segment timestamps -/

theorem dateLt_succ (d : NDate) : dateLt d (dateSucc d) := by
  unfold dateSucc dateLt
  split
  · exact Or.inr ⟨rfl, Or.inr ⟨rfl, Nat.lt_succ_self _⟩⟩
  split
  · exact Or.inr ⟨rfl, Or.inl (Nat.lt_succ_self _)⟩
  · exact Or.inl (show d.year < d.year + 1 by omega)

theorem specStepLe (b c : DT) (t? : Option String) (t : DT)
    (h : (specStep b (some c) t?).1 = some t) : dtLe c t := by
  cases t? with
  | none => exact absurd h (by simp [specStep])
  | some s =>
    simp only [specStep] at h
    cases hp : parse_hhmm s with
    | none =>
      rw [hp] at h
      exact absurd h (by simp)
    | some tod =>
      rw [hp] at h
      have ht : specPlace b (some c) tod = t := Option.some.inj h
      subst ht
      show dtLe c (if ntLt tod c.time then ⟨dateSucc c.date, tod, b.offMin⟩
        else ⟨c.date, tod, b.offMin⟩)
      by_cases hlt : ntLt tod c.time
      · rw [if_pos hlt]
        exact Or.inl (dateLt_succ c.date)
      · rw [if_neg hlt]
        refine Or.inr ⟨rfl, ?_⟩
        show c.time.hour < tod.hour ∨ (c.time.hour = tod.hour ∧ c.time.minute ≤ tod.minute)
        simp only [ntLt, Bool.or_eq_true, Bool.and_eq_true, decide_eq_true_eq,
          beq_iff_eq, not_or, not_and, not_lt] at hlt
        omega

theorem specStep2_of_some {b : DT} {cursor : Option DT} {t? : Option String} {t : DT}
    (h : (specStep b cursor t?).1 = some t) : (specStep b cursor t?).2 = some t := by
  have hs := stepSnd b cursor t?
  rw [h] at hs
  exact hs.symm

theorem specStep2_of_none {b : DT} {cursor : Option DT} {t? : Option String}
    (h : (specStep b cursor t?).1 = none) : (specStep b cursor t?).2 = cursor := by
  have hs := stepSnd b cursor t?
  rw [h] at hs
  exact hs.symm

theorem segTimes_eq (segs : List SegmentDto) :
    segTimes segs = specTimes (segs.map fun s => (s.departure_time, s.arrival_time)) := by
  induction segs with
  | nil => rfl
  | cons s rest ih => simp [segTimes, specTimes, ih]

theorem segTimes_of_absent (segs : List SegmentDto)
    (h : segs.all segTimesAbsent = true) : segTimes segs = [] := by
  induction segs with
  | nil => rfl
  | cons s rest ih =>
    simp only [List.all_cons, Bool.and_eq_true, segTimesAbsent,
      Option.isNone_iff_eq_none] at h
    simp [segTimes, h.1.1, h.1.2, ih h.2]

theorem specRebuild_chain (b : DT) (ts : List (Option String)) : ∀ cursor : Option DT,
    List.Chain' dtLe (cursor.toList ++ specTimes (specRebuild b ts cursor)) := by
  induction ts with
  | nil =>
    intro cursor
    cases cursor <;> simp [specRebuild, specTimes]
  | cons t0 rest ih =>
    intro cursor
    cases rest with
    | nil => cases cursor <;> simp [specRebuild, specTimes]
    | cons t1 rest' =>
      simp only [specRebuild, specTimes]
      cases hd : (specStep b cursor t0).1 with
      | none =>
        rw [specStep2_of_none hd]
        cases ha : (specStep b cursor t1).1 with
        | none =>
          rw [specStep2_of_none ha]
          simpa using ih cursor
        | some a =>
          rw [specStep2_of_some ha]
          have iha := ih (some a)
          cases cursor with
          | none => simpa using iha
          | some c =>
            have hle : dtLe c a := specStepLe b c t1 a ha
            simp only [Option.toList_some, Option.toList_none, List.nil_append,
              List.cons_append, List.append_nil] at iha ⊢
            exact (List.chain'_cons).mpr ⟨hle, iha⟩
      | some d =>
        rw [specStep2_of_some hd]
        cases ha : (specStep b (some d) t1).1 with
        | none =>
          rw [specStep2_of_none ha]
          have ihd := ih (some d)
          cases cursor with
          | none => simpa using ihd
          | some c =>
            have hle : dtLe c d := specStepLe b c t0 d hd
            simp only [Option.toList_some, Option.toList_none, List.nil_append,
              List.cons_append, List.append_nil] at ihd ⊢
            exact (List.chain'_cons).mpr ⟨hle, ihd⟩
        | some a =>
          rw [specStep2_of_some ha]
          have iha := ih (some a)
          have hda : dtLe d a := specStepLe b d t1 a ha
          cases cursor with
          | none =>
            simp only [Option.toList_some, Option.toList_none, List.nil_append,
              List.cons_append] at iha ⊢
            exact (List.chain'_cons).mpr ⟨hda, iha⟩
          | some c =>
            have hcd : dtLe c d := specStepLe b c t0 d hd
            simp only [Option.toList_some, Option.toList_none, List.nil_append,
              List.cons_append] at iha ⊢
            exact (List.chain'_cons).mpr ⟨hcd, (List.chain'_cons).mpr ⟨hda, iha⟩⟩

/-- Claim C10: within every route, the reconstructed segment timestamps, in
traversal order (segment by segment, departure before arrival, absent ones
skipped), are monotonically non-decreasing — every reconstruction is ≥ the
cursor it was placed against.  (All reconstructed timestamps carry the
search timestamp's offset, so `dtLe` coincides with Rust's instant
comparison.) -/
theorem claim_C10 (edges : List Json) (base : Option DT) :
    List.Chain' dtLe (segTimes (build_segments_from_edges edges base)) := by
  cases base with
  | none =>
    rw [segTimes_of_absent]
    · exact List.chain'_nil
    · unfold build_segments_from_edges
      split
      · rfl
      · exact buildSegsGo_none_absent _ none
  | some b =>
    match edges with
    | [] => exact List.chain'_nil
    | [e] => exact List.chain'_nil
    | e1 :: e2 :: rest =>
      have hlen : ¬((e1 :: e2 :: rest).length < 2) := by
        simp only [List.length_cons]
        omega
      unfold build_segments_from_edges
      rw [if_neg hlen, segTimes_eq, buildSegsGo_spec]
      simpa using specRebuild_chain b ((e1 :: e2 :: rest).map edgeTime) none

end Yxhoo
